import Mathlib

/-!
Shallow embedding of the `a2liu/event-system` repository (TypeScript):
`src/schema.ts` (schema compiler) and `src/event.ts` (command registry,
reducer registry, dispatcher `runCommand`, row reconstructor `reduceRow`).
JavaScript objects are modelled as association lists keyed by `String`
(insertion-ordered, unique keys at runtime), SQL `NULL` as `Option.none`,
and the database connection as an explicit in-memory store: the engine's
SQL statements (`SELECT ... FOR UPDATE`, `INSERT ... RETURNING id`,
`UPDATE ... COALESCE`, the `events` append) are interpreted by their
documented semantics on that store.  Failures (`throw`) are `Except.error`;
the transaction is modelled by running the body on the store functionally
and discarding the result on rollback.
-/

/-- A JSON-ish runtime value appearing in rows, payloads and inputs. -/
inductive Value where
  | str (s : String)
  | int (n : Int)
  | bool (b : Bool)
  deriving DecidableEq, Repr

/-- The semantic type tags of `DataType` used by `SchemaType` in `schema.ts`. -/
inductive DType where
  | dbool | dint8 | dint2 | dint4 | duuid | dtext | djson
  | dtimestamp | darrayJson | djsonb | darrayJsonb
  deriving DecidableEq, Repr

/-- A JS object of non-null values (event payloads, command inputs,
reducer outputs). -/
abbrev Payload := List (String × Value)

/-- A materialized row object (`outputData` in `runCommand`): the `id`
field plus one field per column; column cells can be SQL `NULL`. -/
abbrev RowObj := List (String × Option Value)

/-- One stored table row: its id and its cells in column order. -/
structure Row where
  id : String
  cols : List (Option Value)
  deriving DecidableEq, Repr

/-- One persisted `events`-table entry, fields as in the `addEvent` SQL. -/
structure EventLogEntry where
  name : String
  tableName : String
  rowId : String
  actorId : String
  data : Payload
  createdAt : Nat
  deriving DecidableEq, Repr

/-- The in-memory store: the data tables, the append-only event log
(list order is the ascending insertion order `ORDER BY id ASC` reads
back), and the supply of ids the driver returns from
`INSERT ... RETURNING id` (`none` models a result without a usable
string id). -/
structure DB where
  tables : List (String × List Row)
  log : List EventLogEntry
  idSupply : List (Option String)
  deriving DecidableEq, Repr

/-- A registered reducer: `{kind: "create", creator}` or
`{kind: "modify", updater}` as stored by `addReducer`. -/
inductive ReducerEntry where
  | createR (creator : Payload → Payload)
  | modifyR (updater : RowObj → Payload → Payload)

/-- The `reducers` registry: table name → event name → reducer. -/
abbrev Reducers := List (String × List (String × ReducerEntry))

/-- `selectedObjects`: row id → materialized row object. -/
abbrev SelObjs := List (String × RowObj)

/-- `mutatorData`: mutator field name → materialized row object. -/
abbrev MutatorData := List (String × RowObj)

/-- One mutator entry `{table, id}`. -/
structure MutRef where
  table : String
  id : String

/-- `ESEvent = CreationEvent | ModificationEvent | undefined`.  The
`table` attribute is an `Option`: a factory given neither a fixed
command table nor a usable input `table` field yields an absent table
(on which every reducer lookup misses, as in the source).  An empty
event name models a missing/falsy `_event_name` marker. -/
inductive ESEvent where
  | creation (name : String) (table : Option String) (data : Payload)
  | modification (name : String) (rowId : String) (table : Option String) (data : Payload)
  | undef

/-- The uniform dispatchable command object consumed by `runCommand`
(the `input` zod field is never read by the engine and is omitted). -/
structure DispatchCommand where
  name : String
  mutator : Payload → List (String × MutRef)
  planActions : Payload → MutatorData → Except String (List ESEvent)

/-- The argument of `createCommand`: one constructor per overload
(create kind, modify kind, generic dispatch). -/
inductive CommandSpec where
  | createSpec (name : String) (table : Option String)
      (mutator : Payload → List (String × MutRef))
      (validate : Payload → MutatorData → Except String Unit)
  | modifySpec (name : String) (table : Option String)
      (mutator : Payload → List (String × MutRef))
      (validate : Payload → MutatorData → Except String String)
  | genericSpec (name : String)
      (mutator : Payload → List (String × MutRef))
      (planActions : Payload → MutatorData → Except String (List ESEvent))

/-- The `name` field of a `createCommand` argument. -/
def specName : CommandSpec → String
  | .createSpec n _ _ _ => n
  | .modifySpec n _ _ _ => n
  | .genericSpec n _ _ => n

/-- JS object property read: first binding for a key. -/
def alookup {α : Type} : List (String × α) → String → Option α
  | [], _ => none
  | (k, v) :: rest, key => if k = key then some v else alookup rest key

/-- JS object property write: overwrite in place, else append. -/
def aset {α : Type} : List (String × α) → String → α → List (String × α)
  | [], k, v => [(k, v)]
  | (k', v') :: rest, k, v =>
    if k' = k then (k, v) :: rest else (k', v') :: aset rest k v

/-- JS object spread `{...old, ...data}` with `data` a payload of
non-null values (the `selectedObjects` merge in the modify branch). -/
def amergeP (old : RowObj) (upd : Payload) : RowObj :=
  upd.foldl (fun acc kv => aset acc kv.1 (some kv.2)) old

/-- The rest-spread `const { table, ...data } = data_` of the event
factories: the payload with the `table` field removed. -/
def stripTable (p : Payload) : Payload :=
  p.filter (fun kv => kv.1 != "table")

/-- The `table` field an input carries, when it is a usable table name. -/
def inputTableOf (p : Payload) : Option String :=
  match alookup p "table" with
  | some (.str s) => some s
  | _ => none

/-- `commandTable ?? table`: the command's fixed table wins; otherwise
the input's `table` field. -/
def resolveTable (commandTable : Option String) (p : Payload) : Option String :=
  match commandTable with
  | some t => some t
  | none => inputTableOf p

/-- `reducers[table]?.[name]`. -/
def lookup2 (rs : Reducers) (table name : String) : Option ReducerEntry :=
  match alookup rs table with
  | none => none
  | some m => alookup m name

/-- One `COALESCE($i, col)` column update: a non-null parameter replaces
the cell, a null parameter keeps it. -/
def coalesceCells (old new : List (Option Value)) : List (Option Value) :=
  List.zipWith (fun o n => match n with | some v => some v | none => o) old new

/-- The generated `UPDATE ... SET col=COALESCE($i, col) WHERE id = $n+1`
applied to a list of rows. -/
def updateRowsD (rows : List Row) (rowId : String) (vals : List (Option Value)) : List Row :=
  rows.map (fun r => if r.id = rowId then ⟨r.id, coalesceCells r.cols vals⟩ else r)

/-- The update statement applied to one table of the store. -/
def updateRowsInDb (db : DB) (table rowId : String) (vals : List (Option Value)) : DB :=
  ⟨aset db.tables table (updateRowsD ((alookup db.tables table).getD []) rowId vals),
   db.log, db.idSupply⟩

/-- The generated `INSERT` statement: appends the row to the table. -/
def insertRowD (db : DB) (table : String) (row : Row) : DB :=
  ⟨aset db.tables table (((alookup db.tables table).getD []) ++ [row]),
   db.log, db.idSupply⟩

/-- The `addEvent` statement: appends one entry to the event log. -/
def appendLog (db : DB) (en : EventLogEntry) : DB :=
  ⟨db.tables, db.log ++ [en], db.idSupply⟩

/-- `result.rows[0]?.[0]` of `INSERT ... RETURNING id::text`: the next
driver-returned id, `none` when it is not a usable string. -/
def popId (db : DB) : Option String × DB :=
  match db.idSupply with
  | [] => (none, db)
  | o :: rest => (o, ⟨db.tables, db.log, rest⟩)

/-- Whether an `Except` computation succeeded. -/
def isOkE {ε α : Type} : Except ε α → Bool
  | .ok _ => true
  | .error _ => false

/-- The payload carried by an event. -/
def eventDataOf : ESEvent → Payload
  | .creation _ _ d => d
  | .modification _ _ _ d => d
  | .undef => []

/-- The table attribute carried by an event. -/
def eventTableOf : ESEvent → Option String
  | .creation _ t _ => t
  | .modification _ _ t _ => t
  | .undef => none

/-- The row id carried by a modification event. -/
def eventRowIdOf : ESEvent → Option String
  | .modification _ rid _ _ => some rid
  | _ => none

/-- The event name (`_event_name` marker) carried by an event. -/
def eventNameOf : ESEvent → String
  | .creation nm _ _ => nm
  | .modification nm _ _ _ => nm
  | .undef => ""

/-- The positional placeholders `$1,...,$n` of the generated insert. -/
def insertionValues (names : List String) : List String :=
  (List.range names.length).map (fun i => "$" ++ toString (i + 1))

/-- The `name=COALESCE($i, name)` clauses of the generated update. -/
def updateValues (names : List String) : List String :=
  names.enum.map (fun kv => kv.2 ++ "=COALESCE($" ++ toString (kv.1 + 1) ++ ", " ++ kv.2 ++ ")")

/-- The generated lock-and-select template (`selectUpdateForTable`). -/
def mkSelectUpdate (table : String) (names : List String) : String :=
  "\n      SELECT " ++ String.intercalate "," names ++
  "\n      FROM " ++ table ++
  "\n      WHERE id = $1::uuid FOR UPDATE\n    "

/-- The generated insert template (`createForTable`). -/
def mkCreate (table : String) (names : List String) : String :=
  "\n      INSERT INTO " ++ table ++
  "\n      (" ++ String.intercalate "," names ++ ")" ++
  "\n      VALUES (" ++ String.intercalate "," (insertionValues names) ++ ")" ++
  "\n      RETURNING id::text\n    "

/-- The generated COALESCE update template (`updateForTable`). -/
def mkUpdate (table : String) (names : List String) : String :=
  "\n      UPDATE " ++ table ++
  "\n      SET " ++ String.intercalate "," (updateValues names) ++
  "\n      WHERE id = $" ++ toString (names.length + 1) ++ "::uuid\n    "

/-- The output record of `processSchema`. -/
structure SchemaInfo where
  namesForTable : List (String × List String)
  selectUpdateForTable : List (String × String)
  createForTable : List (String × String)
  updateForTable : List (String × String)
  deriving DecidableEq, Repr

/-- `processSchema` from `schema.ts`: iterate the schema's tables in
declaration order, skip the reserved `events` table, and record for each
other table its column-name list and the three generated statements.
(The TS `for..in` loop assigns into four objects; with the schema's
table names unique, building the association lists by structural
recursion yields the same lookups.) -/
def processSchema : List (String × List (String × DType)) → SchemaInfo
  | [] => ⟨[], [], [], []⟩
  | (table, cols) :: rest =>
    let r := processSchema rest
    if table = "events" then r
    else
      let names := cols.map Prod.fst
      ⟨(table, names) :: r.namesForTable,
       (table, mkSelectUpdate table names) :: r.selectUpdateForTable,
       (table, mkCreate table names) :: r.createForTable,
       (table, mkUpdate table names) :: r.updateForTable⟩

/-- The `creatorEvent` factory closed over `name`, `kind` and
`commandTable` in `createCommand`. -/
def creatorEvent (name : String) (commandTable : Option String) (data_ : Payload) : ESEvent :=
  .creation name (resolveTable commandTable data_) (stripTable data_)

/-- The `updaterEvent` factory closed over `name`, `kind` and
`commandTable` in `createCommand`. -/
def updaterEvent (name : String) (commandTable : Option String) (rowId : String) (data_ : Payload) : ESEvent :=
  .modification name rowId (resolveTable commandTable data_) (stripTable data_)

/-- The synthesized `planActions` of a create-kind command: run
`validate`; on success emit exactly one Creation event. -/
def creatorPlanActions (name : String) (commandTable : Option String)
    (validate : Payload → MutatorData → Except String Unit) :
    Payload → MutatorData → Except String (List ESEvent) :=
  fun input md =>
    match validate input md with
    | .error m => .error m
    | .ok _ => .ok [creatorEvent name commandTable input]

/-- The synthesized `planActions` of a modify-kind command: `validate`
resolves the target row id; emit one Modification event for it. -/
def updaterPlanActions (name : String) (commandTable : Option String)
    (validate : Payload → MutatorData → Except String String) :
    Payload → MutatorData → Except String (List ESEvent) :=
  fun input md =>
    match validate input md with
    | .error m => .error m
    | .ok id => .ok [updaterEvent name commandTable id input]

/-- `createCommand`: fail on a duplicate command name, otherwise record
the name and return the uniform dispatchable command (create and modify
kinds get the synthesized `planActions`; generic kind is returned as
supplied). -/
def createCommand (commandNames : List String) (spec : CommandSpec) :
    Except String (List String × DispatchCommand) :=
  if specName spec ∈ commandNames then
    .error ("Duplicate command name " ++ specName spec)
  else
    .ok (specName spec :: commandNames,
      match spec with
      | .createSpec n t m v => ⟨n, m, creatorPlanActions n t v⟩
      | .modifySpec n t m v => ⟨n, m, updaterPlanActions n t v⟩
      | .genericSpec n m pa => ⟨n, m, pa⟩)

/-- `addReducer`: fail on a duplicate `(table, event name)` pair,
otherwise record the reducer. -/
def addReducer (rs : Reducers) (table name : String) (red : ReducerEntry) :
    Except String Reducers :=
  match lookup2 rs table name with
  | some _ => .error "Duplicate event handler for table"
  | none => .ok (aset rs table (aset ((alookup rs table).getD []) name red))

/-- The `LockMutatorRows` loop of `runCommand`: for each mutator entry
run the table's lock-and-select (a missing generated statement — a table
outside the compiled schema — makes the query call throw); a missing row
is skipped; a found row is materialized as `{id, ...columns}` and cached
in both `selectedObjects` (by row id) and `mutatorData` (by field). -/
def lockRows (si : SchemaInfo) (db : DB) :
    List (String × MutRef) → SelObjs → MutatorData → Except String (SelObjs × MutatorData)
  | [], so, md => .ok (so, md)
  | (field, ref) :: rest, so, md =>
    match alookup si.namesForTable ref.table with
    | none => .error "query of undefined table"
    | some names =>
      match ((alookup db.tables ref.table).getD []).find? (fun r => r.id == ref.id) with
      | none => lockRows si db rest so md
      | some row =>
        let outputData : RowObj := ("id", some (.str ref.id)) :: List.zip names row.cols
        lockRows si db rest (aset so ref.id outputData) (aset md field outputData)

/-- One iteration of the `ApplyEvents` loop of `runCommand`: skip
no-op/unnamed events and events with no (matching) reducer; a create
event with a create reducer inserts the creator's row (failing if the
driver returns no usable id) and appends a log entry under the new id; a
modify event with a modify reducer requires its row in the locked-row
cache (failing otherwise), merges the updater's partial result into the
cache, COALESCE-updates the stored row and appends a log entry. -/
def applyEvent (si : SchemaInfo) (rs : Reducers) (actorId : String) (now : Nat)
    (so : SelObjs) (db : DB) : ESEvent → Except String (SelObjs × DB)
  | .undef => .ok (so, db)
  | .creation nm tbl? d =>
    if nm = "" then .ok (so, db)
    else
      match tbl? with
      | none => .ok (so, db)
      | some t =>
        match lookup2 rs t nm with
        | none => .ok (so, db)
        | some (.modifyR _) => .ok (so, db)
        | some (.createR creator) =>
          match alookup si.namesForTable t with
          | none => .error "cannot read names of undefined table"
          | some names =>
            let data := creator d
            let rowData := names.map (fun n => alookup data n)
            match popId db with
            | (none, _) => .error "failed to get ID from data"
            | (some id, db1) =>
              let db2 := insertRowD db1 t ⟨id, rowData⟩
              .ok (so, appendLog db2 ⟨nm, t, id, actorId, d, now⟩)
  | .modification nm rid tbl? d =>
    if nm = "" then .ok (so, db)
    else
      match tbl? with
      | none => .ok (so, db)
      | some t =>
        match lookup2 rs t nm with
        | none => .ok (so, db)
        | some (.createR _) => .ok (so, db)
        | some (.modifyR updater) =>
          match alookup so rid with
          | none => .error "Tried to update object that was not requested in mutator"
          | some prev =>
            match alookup si.namesForTable t with
            | none => .error "cannot read names of undefined table"
            | some names =>
              let data := updater prev d
              let so1 := aset so rid (amergeP prev data)
              let rowData := names.map (fun n => alookup data n)
              let db1 := updateRowsInDb db t rid rowData
              .ok (so1, appendLog db1 ⟨nm, t, rid, actorId, d, now⟩)

/-- The full `ApplyEvents` loop, threading the locked-row cache and the
store through the planned events in order. -/
def applyEvents (si : SchemaInfo) (rs : Reducers) (actorId : String) (now : Nat) :
    List ESEvent → SelObjs → DB → Except String (SelObjs × DB)
  | [], so, db => .ok (so, db)
  | e :: rest, so, db =>
    match applyEvent si rs actorId now so db e with
    | .error m => .error m
    | .ok (so1, db1) => applyEvents si rs actorId now rest so1 db1

/-- The body of `runCommand` between `begin` and `commit`: lock the
mutator's rows, plan the events, apply them.  An `Except.error` is a
thrown failure reaching the outermost catch. -/
def runCommandE (si : SchemaInfo) (rs : Reducers) (cmd : DispatchCommand)
    (input : Payload) (actorId : String) (now : Nat) (db : DB) : Except String DB :=
  match lockRows si db (cmd.mutator input) [] [] with
  | .error m => .error m
  | .ok (so, md) =>
    match cmd.planActions input md with
    | .error m => .error m
    | .ok events =>
      match applyEvents si rs actorId now events so db with
      | .error m => .error m
      | .ok (_, db') => .ok db'

/-- `runCommand`: commit the body's result, or catch any failure, log
it, roll the transaction back (the store keeps its pre-state) and return
nothing — the caller receives no success/failure signal. -/
def runCommand (si : SchemaInfo) (rs : Reducers) (cmd : DispatchCommand)
    (input : Payload) (actorId : String) (now : Nat) (db : DB) : DB :=
  match runCommandE si rs cmd input actorId now db with
  | .ok db' => db'
  | .error _ => db

/-- The `selectEvents` query: every log entry for `(table, rowId)` in
ascending insertion order. -/
def selectEventsQ (db : DB) (table rowId : String) : List EventLogEntry :=
  db.log.filter (fun en => en.tableName == table && en.rowId == rowId)

/-- `reduceRow` as the source implements it: open a transaction, read
the row's events, log each to the console, commit, and return an empty
object — the entries are never folded through the reducers and an empty
log is not reported as a failure (the catch path also returns `{}`). -/
def reduceRow (db : DB) (table rowId : String) : Payload :=
  let _events := selectEventsQ db table rowId
  []

/-- Modelled from the spec: the intended row reconstruction `reduceRow`
never implements (spec §4.5) — fold the row's event log in ascending
order through the table's registered reducers, the first entry seeding
the state via its create-kind reducer, each subsequent entry merging its
modify-kind reducer's partial result on top; an empty log fails with a
"row not found" condition. -/
def reduceRowModel (rs : Reducers) (db : DB) (table rowId : String) :
    Except String Payload :=
  match selectEventsQ db table rowId with
  | [] => .error "row not found"
  | first :: rest =>
    match lookup2 rs table first.name with
    | some (.createR creator) =>
      rest.foldlM (fun st en =>
        match lookup2 rs table en.name with
        | some (.modifyR updater) =>
          .ok ((updater (st.map (fun kv => (kv.1, some kv.2))) en.data).foldl
                (fun acc kv => aset acc kv.1 kv.2) st)
        | _ => .error "log entry without matching modify reducer")
        (creator first.data)
    | _ => .error "first log entry is not a create event"

/-- Relation between a planned event and the log-entry batch its
application appended: the entry carries the event's name and payload,
and a modification entry targets the event's row id. -/
def entryForEvent (e : ESEvent) (en : EventLogEntry) : Prop :=
  match e with
  | .creation nm _ d => en.name = nm ∧ en.data = d
  | .modification nm rid _ d => en.name = nm ∧ en.rowId = rid ∧ en.data = d
  | .undef => False

/-- Each planned event contributes either no log entry (skipped) or
exactly one entry of its own. -/
def entryTailRel (e : ESEvent) (tail : List EventLogEntry) : Prop :=
  tail = [] ∨ ∃ en, tail = [en] ∧ entryForEvent e en

/-- No reducer is registered for the event's `(table, name)` pair (a
missing table attribute also finds no reducer). -/
def noReducerFor (rs : Reducers) (tbl? : Option String) (name : String) : Prop :=
  match tbl? with
  | none => True
  | some t => lookup2 rs t name = none

/-- The event finds no registered reducer (no-op events trivially so). -/
def eventNoReducer (rs : Reducers) : ESEvent → Prop
  | .creation nm tbl? _ => noReducerFor rs tbl? nm
  | .modification nm _ tbl? _ => noReducerFor rs tbl? nm
  | .undef => True

/-- A one-table example schema: `items` with a single `value` column,
next to the reserved `events` table. -/
def schema0 : List (String × List (String × DType)) :=
  [("items", [("value", DType.dint4)]),
   ("events", [("created_at", DType.dtimestamp), ("name", DType.dtext),
               ("table_name", DType.dtext), ("row_id", DType.duuid),
               ("actor_id", DType.duuid), ("data", DType.djsonb)])]

/-- The compiled example schema. -/
def si0 : SchemaInfo := processSchema schema0

/-- A create-kind validate collaborator that always passes. -/
def vOkC : Payload → MutatorData → Except String Unit := fun _ _ => .ok ()

/-- A mutator that locks no rows. -/
def muNone : Payload → List (String × MutRef) := fun _ => []

/-- An updater that increments the previous `value` — a
previous-state-dependent partial update. -/
def incU : RowObj → Payload → Payload :=
  fun prev _ =>
    [("value", Value.int (match alookup prev "value" with
      | some (some (.int k)) => k + 1
      | _ => 0))]

/-- A creator that uses the event payload as the full row. -/
def idCreator : Payload → Payload := fun d => d

/-- Example reducer registry: a create reducer `addItem` and a modify
reducer `inc`, both on `items`. -/
def rs0 : Reducers :=
  [("items", [("addItem", ReducerEntry.createR idCreator),
              ("inc", ReducerEntry.modifyR incU)])]

/-- The modify-kind command `inc` as `createCommand` synthesizes it:
fixed table `items`, validate resolving row `r1`. -/
def cmdInc : DispatchCommand :=
  ⟨"inc", fun _ => [("target", ⟨"items", "r1"⟩)],
   updaterPlanActions "inc" (some "items") (fun _ _ => .ok "r1")⟩

/-- The create-kind command `addItem` as `createCommand` synthesizes it:
fixed table `items`, always-passing validate. -/
def cmdAdd : DispatchCommand :=
  ⟨"addItem", fun _ => [],
   creatorPlanActions "addItem" (some "items") (fun _ _ => .ok ())⟩

/-- A generic command that plans one event no reducer is registered
for. -/
def cmdGhost : DispatchCommand :=
  ⟨"ghost", fun _ => [],
   fun _ _ => .ok [ESEvent.creation "ghost" (some "items") [("value", Value.int 3)]]⟩

/-- A generic command whose planning always fails. -/
def cmdBoom : DispatchCommand :=
  ⟨"boom", fun _ => [], fun _ _ => .error "boom"⟩

/-- Example store: `items` holds one row `r1` with `value = 5`; empty
log; the driver will hand out id `n1` for the next insert. -/
def db0 : DB :=
  ⟨[("items", [⟨"r1", [some (Value.int 5)]⟩])], [], [some "n1"]⟩

/-- A store whose driver returns no usable id for the next insert. -/
def dbNoId : DB :=
  ⟨[("items", [])], [], []⟩

/-- The store after dispatching `inc` once on `db0`. -/
def db1 : DB := runCommand si0 rs0 cmdInc [] "actor" 0 db0

/-- The store after dispatching `inc` a second time. -/
def db2 : DB := runCommand si0 rs0 cmdInc [] "actor" 0 db1

/-- A store with an `items` table holding no rows at all. -/
def dbEmpty : DB := ⟨[("items", [])], [], []⟩

/-- A store whose event log already holds a create entry followed by a
modify entry for row `r9` of `items`. -/
def dbLog : DB :=
  ⟨[("items", [])],
   [⟨"addItem", "items", "r9", "actor", [("value", Value.int 1)], 0⟩,
    ⟨"inc", "items", "r9", "actor", [], 0⟩],
   []⟩


theorem alookup_stripTable (p : Payload) : alookup (stripTable p) "table" = none := by
  induction p with
  | nil => rfl
  | cons kv rest ih =>
    by_cases h : kv.1 = "table"
    · simpa [stripTable, List.filter_cons, h] using ih
    · simpa [stripTable, List.filter_cons, h, alookup] using ih

theorem popId_log (db : DB) : (popId db).2.log = db.log := by
  cases h : db.idSupply <;> simp [popId, h]

/-- Claim C1: `reduceRow` is claimed to fold the row's event log through
the table's reducers in ascending order and to fail with a not-found
condition on an empty log.  The source instead reads the log and returns
the empty object unconditionally: on a row whose log holds a create
entry (payload `{value: 1}`) and a modify entry (the `inc` updater), the
claimed fold yields `{value: 2}`, yet `reduceRow` returns `{}`; on a row
with no entries the claimed behavior is a "row not found" failure, yet
`reduceRow` returns `{}` again (its type is not even fallible). -/
theorem reduceRow_stub_is_code_bug :
    reduceRow dbLog "items" "r9" = [] ∧
    selectEventsQ dbLog "items" "r9" ≠ [] ∧
    reduceRowModel rs0 dbLog "items" "r9" = .ok [("value", Value.int 2)] ∧
    selectEventsQ dbLog "items" "nope" = [] ∧
    reduceRow dbLog "items" "nope" = [] ∧
    reduceRowModel rs0 dbLog "items" "nope" = .error "row not found" :=
  ⟨rfl, by decide, rfl, by decide, rfl, rfl⟩

/-- Claim C5: every runtime failure raised between Begin and Commit is
caught at `runCommand`'s outermost scope and answered with a rollback
that leaves the store at its pre-state, while a successful body commits
its result; `runCommand`'s return type carries no success/failure signal
(it returns only the store, never an error), so the caller cannot
distinguish the two outcomes and `runCommand` never raises. -/
theorem run_command_propagation_policy (si : SchemaInfo) (rs : Reducers)
    (cmd : DispatchCommand) (input : Payload) (a : String) (n : Nat) (db : DB) :
    (∀ m, runCommandE si rs cmd input a n db = .error m →
      runCommand si rs cmd input a n db = db) ∧
    (∀ db', runCommandE si rs cmd input a n db = .ok db' →
      runCommand si rs cmd input a n db = db') := by
  constructor
  · intro m h
    unfold runCommand
    rw [h]
  · intro db' h
    unfold runCommand
    rw [h]

/-- Witness for C5: a command whose planning throws rolls back to the
pre-state, and a command whose events are all skipped commits it
unchanged; the caller sees the same store-shaped result either way. -/
theorem run_command_propagation_policy_witness :
    runCommand si0 rs0 cmdBoom [] "actor" 0 db0 = db0 ∧
    runCommand si0 rs0 cmdGhost [] "actor" 0 db0 = db0 :=
  ⟨(run_command_propagation_policy si0 rs0 cmdBoom [] "actor" 0 db0).1 "boom" rfl,
   (run_command_propagation_policy si0 rs0 cmdGhost [] "actor" 0 db0).2 db0 rfl⟩

/-- Claim C7: registering a command under an already-taken name fails
with the duplicate-command condition, and registering a reducer for an
already-taken `(table, event name)` pair fails with the duplicate-handler
condition; in both cases the failing call returns no new registry, so
the caller's registry — where the first registration still answers the
lookup — remains in place. -/
theorem duplicate_registration_fails :
    (∀ (commandNames : List String) (spec : CommandSpec),
      specName spec ∈ commandNames →
      createCommand commandNames spec =
        .error ("Duplicate command name " ++ specName spec)) ∧
    (∀ (rs : Reducers) (t nm : String) (r r' : ReducerEntry),
      lookup2 rs t nm = some r →
      addReducer rs t nm r' = .error "Duplicate event handler for table") := by
  constructor
  · intro commandNames spec h
    unfold createCommand
    rw [if_pos h]
  · intro rs t nm r r' h
    unfold addReducer
    rw [h]

/-- Witness for C7: re-registering the command name `inc` and the
reducer pair `(items, inc)` both fail with the respective conditions. -/
theorem duplicate_registration_fails_witness :
    createCommand ["inc"]
        (CommandSpec.modifySpec "inc" (some "items") (fun _ => []) (fun _ _ => .ok "r1")) =
      .error ("Duplicate command name " ++ "inc") ∧
    addReducer rs0 "items" "inc" (ReducerEntry.createR idCreator) =
      .error "Duplicate event handler for table" :=
  ⟨duplicate_registration_fails.1 ["inc"]
      (CommandSpec.modifySpec "inc" (some "items") (fun _ => []) (fun _ _ => .ok "r1"))
      (by decide),
   duplicate_registration_fails.2 rs0 "items" "inc"
      (ReducerEntry.modifyR incU) (ReducerEntry.createR idCreator) rfl⟩

/-- Claim C10: both event factories remove the `table` field from the
event payload (the payload is the input with `table` stripped, and a
`table` lookup on it misses), a command-declared fixed table determines
the event's table attribute even when the input carries a `table` field,
the input's `table` field is consulted only when no fixed table is
declared, and the updater factory tags the event with the given row
id. -/
theorem event_factory_table_resolution (name t : String) (ct : Option String)
    (input : Payload) (rid : String) :
    alookup (eventDataOf (creatorEvent name ct input)) "table" = none ∧
    alookup (eventDataOf (updaterEvent name ct rid input)) "table" = none ∧
    eventDataOf (creatorEvent name ct input) = stripTable input ∧
    eventDataOf (updaterEvent name ct rid input) = stripTable input ∧
    eventTableOf (creatorEvent name (some t) input) = some t ∧
    eventTableOf (updaterEvent name (some t) rid input) = some t ∧
    eventTableOf (creatorEvent name none input) = inputTableOf input ∧
    eventTableOf (updaterEvent name none rid input) = inputTableOf input ∧
    eventRowIdOf (updaterEvent name ct rid input) = some rid :=
  ⟨alookup_stripTable input, alookup_stripTable input,
   rfl, rfl, rfl, rfl, rfl, rfl, rfl⟩

/-- Counterexample for C9: the same modify event `inc` (same name, same
row `r1`, same payload) issued twice through `runCommand` does not
produce the same final row state both times: the updater is recomputed
on the merged state, so `value` goes 5 → 6 after the first call and
6 → 7 after the second. -/
theorem modify_replay_not_state_invariant :
    alookup db1.tables "items" = some [⟨"r1", [some (Value.int 6)]⟩] ∧
    alookup db2.tables "items" = some [⟨"r1", [some (Value.int 7)]⟩] ∧
    alookup db1.tables "items" ≠ alookup db2.tables "items" :=
  ⟨rfl, rfl, by decide⟩

theorem applyEvent_skip (si : SchemaInfo) (rs : Reducers) (a : String) (n : Nat)
    (so : SelObjs) (db : DB) (e : ESEvent) (h : eventNoReducer rs e) :
    applyEvent si rs a n so db e = .ok (so, db) := by
  cases e with
  | undef => rfl
  | creation nm tbl? d =>
    by_cases hnm : nm = ""
    · simp only [applyEvent, if_pos hnm]
    · cases tbl? with
      | none => simp only [applyEvent, if_neg hnm]
      | some t =>
        have h' : lookup2 rs t nm = none := h
        simp only [applyEvent, if_neg hnm, h']
  | modification nm rid tbl? d =>
    by_cases hnm : nm = ""
    · simp only [applyEvent, if_pos hnm]
    · cases tbl? with
      | none => simp only [applyEvent, if_neg hnm]
      | some t =>
        have h' : lookup2 rs t nm = none := h
        simp only [applyEvent, if_neg hnm, h']

theorem applyEvents_all_skip (si : SchemaInfo) (rs : Reducers) (a : String) (n : Nat) :
    ∀ (events : List ESEvent) (so : SelObjs) (db : DB),
      (∀ e ∈ events, eventNoReducer rs e) →
      applyEvents si rs a n events so db = .ok (so, db) := by
  intro events
  induction events with
  | nil => intro so db _; rfl
  | cons e rest ih =>
    intro so db h
    simp only [applyEvents, applyEvent_skip si rs a n so db e (h e (List.mem_cons_self e rest))]
    exact ih so db (fun e' he' => h e' (List.mem_cons_of_mem e he'))

/-- Claim C6: an event whose `(table, name)` pair has no registered
reducer is dropped without error — the apply loop treats it exactly as
if it were absent (no row inserted or updated, no event-log entry
appended) — and a command all of whose planned events lack reducers
still proceeds to commit, leaving the store unchanged. -/
theorem unmatched_event_dropped :
    (∀ (si : SchemaInfo) (rs : Reducers) (a : String) (n : Nat) (so : SelObjs)
        (db : DB) (nm : String) (tbl? : Option String) (d : Payload)
        (rest : List ESEvent),
      noReducerFor rs tbl? nm →
      applyEvents si rs a n (ESEvent.creation nm tbl? d :: rest) so db =
        applyEvents si rs a n rest so db) ∧
    (∀ (si : SchemaInfo) (rs : Reducers) (a : String) (n : Nat) (so : SelObjs)
        (db : DB) (nm rid : String) (tbl? : Option String) (d : Payload)
        (rest : List ESEvent),
      noReducerFor rs tbl? nm →
      applyEvents si rs a n (ESEvent.modification nm rid tbl? d :: rest) so db =
        applyEvents si rs a n rest so db) ∧
    (∀ (si : SchemaInfo) (rs : Reducers) (cmd : DispatchCommand) (input : Payload)
        (a : String) (n : Nat) (db : DB) (so : SelObjs) (md : MutatorData)
        (events : List ESEvent),
      lockRows si db (cmd.mutator input) [] [] = .ok (so, md) →
      cmd.planActions input md = .ok events →
      (∀ e ∈ events, eventNoReducer rs e) →
      runCommandE si rs cmd input a n db = .ok db) := by
  refine ⟨?_, ?_, ?_⟩
  · intro si rs a n so db nm tbl? d rest h
    simp only [applyEvents, applyEvent_skip si rs a n so db (ESEvent.creation nm tbl? d) h]
  · intro si rs a n so db nm rid tbl? d rest h
    simp only [applyEvents, applyEvent_skip si rs a n so db (ESEvent.modification nm rid tbl? d) h]
  · intro si rs cmd input a n db so md events h1 h2 h3
    simp only [runCommandE, h1, h2, applyEvents_all_skip si rs a n events so db h3]

/-- Witness for C6: the `ghost` event has no reducer in `rs0`; applying
it is a no-op and the `ghost` command commits `db0` unchanged. -/
theorem unmatched_event_dropped_witness :
    applyEvents si0 rs0 "actor" 0 [ESEvent.creation "ghost" (some "items") []] [] db0 =
      applyEvents si0 rs0 "actor" 0 [] [] db0 ∧
    runCommandE si0 rs0 cmdGhost [] "actor" 0 db0 = .ok db0 :=
  ⟨unmatched_event_dropped.1 si0 rs0 "actor" 0 [] db0 "ghost" (some "items") [] [] rfl,
   unmatched_event_dropped.2.2 si0 rs0 cmdGhost [] "actor" 0 db0 [] []
     [ESEvent.creation "ghost" (some "items") [("value", Value.int 3)]] rfl rfl
     (by
       intro e he
       rw [List.mem_singleton] at he
       subst he
       exact rfl)⟩

/-- Claim C2: during event application, a modify event targeting a row
id absent from the locked-row cache aborts the apply loop with the
"not requested in mutator" failure, a create event for which the driver
returns no usable row identifier aborts it with the "failed to get ID"
failure, and any failure during event application makes `runCommand`
roll back: the store it returns is exactly its pre-state, with no row
mutation and no event-log entry persisted from the call. -/
theorem apply_fatal_rolls_back :
    (∀ (si : SchemaInfo) (rs : Reducers) (a : String) (n : Nat) (so : SelObjs)
        (db : DB) (nm rid t : String) (d : Payload) (rest : List ESEvent)
        (u : RowObj → Payload → Payload),
      nm ≠ "" → lookup2 rs t nm = some (.modifyR u) → alookup so rid = none →
      applyEvents si rs a n (ESEvent.modification nm rid (some t) d :: rest) so db =
        .error "Tried to update object that was not requested in mutator") ∧
    (∀ (si : SchemaInfo) (rs : Reducers) (a : String) (n : Nat) (so : SelObjs)
        (db : DB) (nm t : String) (d : Payload) (rest : List ESEvent)
        (c : Payload → Payload) (names : List String),
      nm ≠ "" → lookup2 rs t nm = some (.createR c) →
      alookup si.namesForTable t = some names → db.idSupply.headD none = none →
      applyEvents si rs a n (ESEvent.creation nm (some t) d :: rest) so db =
        .error "failed to get ID from data") ∧
    (∀ (si : SchemaInfo) (rs : Reducers) (cmd : DispatchCommand) (input : Payload)
        (a : String) (n : Nat) (db : DB) (so : SelObjs) (md : MutatorData)
        (events : List ESEvent) (m : String),
      lockRows si db (cmd.mutator input) [] [] = .ok (so, md) →
      cmd.planActions input md = .ok events →
      applyEvents si rs a n events so db = .error m →
      runCommand si rs cmd input a n db = db) := by
  refine ⟨?_, ?_, ?_⟩
  · intro si rs a n so db nm rid t d rest u hnm hlook hprev
    simp only [applyEvents, applyEvent, if_neg hnm, hlook, hprev]
  · intro si rs a n so db nm t d rest c names hnm hlook hnames hid
    have hpop : (popId db).1 = none := by
      cases hs : db.idSupply with
      | nil => simp [popId, hs]
      | cons o os => simp only [popId, hs]; simpa [hs] using hid
    simp only [applyEvents, applyEvent, if_neg hnm, hlook, hnames]
    cases hp : popId db with
    | mk o rest' =>
      rw [hp] at hpop
      simp only at hpop
      subst hpop
      simp only
  · intro si rs cmd input a n db so md events m h1 h2 h3
    simp only [runCommand, runCommandE, h1, h2, h3]

/-- Witness for C2: applying a modify event for the never-locked row
`r1` aborts; a create event on a store whose driver yields no id aborts;
and dispatching `inc` against a store without `r1` (so the mutator locks
nothing and the planned modify event targets an unlocked row) returns
the pre-state unchanged. -/
theorem apply_fatal_rolls_back_witness :
    applyEvents si0 rs0 "actor" 0 [ESEvent.modification "inc" "r1" (some "items") []] [] db0 =
      .error "Tried to update object that was not requested in mutator" ∧
    applyEvents si0 rs0 "actor" 0 [ESEvent.creation "addItem" (some "items") []] [] dbNoId =
      .error "failed to get ID from data" ∧
    runCommand si0 rs0 cmdInc [] "actor" 0 dbEmpty = dbEmpty :=
  ⟨apply_fatal_rolls_back.1 si0 rs0 "actor" 0 [] db0 "inc" "r1" "items" [] []
      incU (by decide) rfl rfl,
   apply_fatal_rolls_back.2.1 si0 rs0 "actor" 0 [] dbNoId "addItem" "items" [] []
      idCreator ["value"] (by decide) rfl rfl rfl,
   apply_fatal_rolls_back.2.2 si0 rs0 cmdInc [] "actor" 0 dbEmpty [] []
      [ESEvent.modification "inc" "r1" (some "items") []]
      "Tried to update object that was not requested in mutator" rfl rfl rfl⟩

/-- Claim C4: for a create-kind command, `createCommand` (on a fresh
name) returns a dispatchable command whose synthesized `planActions`
first runs `validate`; a validate failure propagates unchanged and
produces no event, and a validate success yields exactly one Creation
event named after the command, carrying the input with its `table`
field stripped as payload, with the table attribute resolved from the
command's fixed table or the input's `table` field. -/
theorem create_command_planning (commandNames : List String) (nm : String)
    (t : Option String) (mu : Payload → List (String × MutRef))
    (v : Payload → MutatorData → Except String Unit)
    (h : nm ∉ commandNames) :
    ∃ cmd : DispatchCommand,
      createCommand commandNames (CommandSpec.createSpec nm t mu v) =
        .ok (nm :: commandNames, cmd) ∧
      cmd.name = nm ∧ cmd.mutator = mu ∧
      (∀ input md m', v input md = .error m' → cmd.planActions input md = .error m') ∧
      (∀ input md, v input md = .ok () → cmd.planActions input md =
        .ok [ESEvent.creation nm (resolveTable t input) (stripTable input)]) ∧
      (∀ input : Payload, alookup (eventDataOf (creatorEvent nm t input)) "table" = none) := by
  refine ⟨⟨nm, mu, creatorPlanActions nm t v⟩, ?_, rfl, rfl, ?_, ?_, ?_⟩
  · simp only [createCommand, specName, if_neg h]
  · intro input md m' hv
    simp only [creatorPlanActions, hv]
  · intro input md hv
    simp only [creatorPlanActions, hv, creatorEvent]
  · intro input
    exact alookup_stripTable input

/-- Witness for C4: registering the fresh create command `addItem` next
to an existing name succeeds, its planning fails exactly when validate
does, and on success it emits the single stripped Creation event. -/
theorem create_command_planning_witness :
    ∃ cmd : DispatchCommand,
      createCommand ["other"]
          (CommandSpec.createSpec "addItem" (some "items") muNone vOkC) =
        .ok ("addItem" :: ["other"], cmd) ∧
      cmd.name = "addItem" ∧ cmd.mutator = muNone ∧
      (∀ input md m', vOkC input md = .error m' → cmd.planActions input md = .error m') ∧
      (∀ input md, vOkC input md = .ok () → cmd.planActions input md =
        .ok [ESEvent.creation "addItem" (resolveTable (some "items") input) (stripTable input)]) ∧
      (∀ input : Payload,
        alookup (eventDataOf (creatorEvent "addItem" (some "items") input)) "table" = none) :=
  create_command_planning ["other"] "addItem" (some "items") muNone vOkC (by decide)

theorem applyEvent_log {si : SchemaInfo} {rs : Reducers} {a : String} {n : Nat}
    {so : SelObjs} {db : DB} {e : ESEvent} {so' : SelObjs} {db' : DB}
    (h : applyEvent si rs a n so db e = .ok (so', db')) :
    ∃ tail, db'.log = db.log ++ tail ∧ entryTailRel e tail := by
  cases e with
  | undef =>
    simp only [applyEvent, Except.ok.injEq, Prod.mk.injEq] at h
    exact ⟨[], by rw [← h.2, List.append_nil], Or.inl rfl⟩
  | creation nm tbl? d =>
    by_cases hnm : nm = ""
    · simp only [applyEvent, if_pos hnm, Except.ok.injEq, Prod.mk.injEq] at h
      exact ⟨[], by rw [← h.2, List.append_nil], Or.inl rfl⟩
    · cases tbl? with
      | none =>
        simp only [applyEvent, if_neg hnm, Except.ok.injEq, Prod.mk.injEq] at h
        exact ⟨[], by rw [← h.2, List.append_nil], Or.inl rfl⟩
      | some t =>
        cases hl : lookup2 rs t nm with
        | none =>
          simp only [applyEvent, if_neg hnm, hl, Except.ok.injEq, Prod.mk.injEq] at h
          exact ⟨[], by rw [← h.2, List.append_nil], Or.inl rfl⟩
        | some red =>
          cases red with
          | modifyR u =>
            simp only [applyEvent, if_neg hnm, hl, Except.ok.injEq, Prod.mk.injEq] at h
            exact ⟨[], by rw [← h.2, List.append_nil], Or.inl rfl⟩
          | createR c =>
            cases hn : alookup si.namesForTable t with
            | none =>
              simp only [applyEvent, if_neg hnm, hl, hn] at h
              exact Except.noConfusion h
            | some names =>
              cases hp : popId db with
              | mk o db1 =>
                cases o with
                | none =>
                  simp only [applyEvent, if_neg hnm, hl, hn, hp] at h
                  exact Except.noConfusion h
                | some id =>
                  simp only [applyEvent, if_neg hnm, hl, hn, hp, Except.ok.injEq,
                    Prod.mk.injEq] at h
                  refine ⟨[⟨nm, t, id, a, d, n⟩], ?_, Or.inr ⟨_, rfl, rfl, rfl⟩⟩
                  have hdb1 : db1.log = db.log := by
                    have hx := popId_log db
                    rw [hp] at hx
                    exact hx
                  rw [← h.2]
                  simp [appendLog, insertRowD, hdb1]
  | modification nm rid tbl? d =>
    by_cases hnm : nm = ""
    · simp only [applyEvent, if_pos hnm, Except.ok.injEq, Prod.mk.injEq] at h
      exact ⟨[], by rw [← h.2, List.append_nil], Or.inl rfl⟩
    · cases tbl? with
      | none =>
        simp only [applyEvent, if_neg hnm, Except.ok.injEq, Prod.mk.injEq] at h
        exact ⟨[], by rw [← h.2, List.append_nil], Or.inl rfl⟩
      | some t =>
        cases hl : lookup2 rs t nm with
        | none =>
          simp only [applyEvent, if_neg hnm, hl, Except.ok.injEq, Prod.mk.injEq] at h
          exact ⟨[], by rw [← h.2, List.append_nil], Or.inl rfl⟩
        | some red =>
          cases red with
          | createR c =>
            simp only [applyEvent, if_neg hnm, hl, Except.ok.injEq, Prod.mk.injEq] at h
            exact ⟨[], by rw [← h.2, List.append_nil], Or.inl rfl⟩
          | modifyR u =>
            cases hprev : alookup so rid with
            | none =>
              simp only [applyEvent, if_neg hnm, hl, hprev] at h
              exact Except.noConfusion h
            | some prev =>
              cases hn : alookup si.namesForTable t with
              | none =>
                simp only [applyEvent, if_neg hnm, hl, hprev, hn] at h
                exact Except.noConfusion h
              | some names =>
                simp only [applyEvent, if_neg hnm, hl, hprev, hn, Except.ok.injEq,
                  Prod.mk.injEq] at h
                refine ⟨[⟨nm, t, rid, a, d, n⟩], ?_, Or.inr ⟨_, rfl, rfl, rfl, rfl⟩⟩
                rw [← h.2]
                simp [appendLog, updateRowsInDb]

theorem applyEvents_log {si : SchemaInfo} {rs : Reducers} {a : String} {n : Nat} :
    ∀ {events : List ESEvent} {so : SelObjs} {db : DB} {so' : SelObjs} {db' : DB},
      applyEvents si rs a n events so db = .ok (so', db') →
      ∃ L, List.Forall₂ entryTailRel events L ∧ db'.log = db.log ++ L.flatten := by
  intro events
  induction events with
  | nil =>
    intro so db so' db' h
    simp only [applyEvents, Except.ok.injEq, Prod.mk.injEq] at h
    exact ⟨[], .nil, by rw [← h.2]; simp [List.flatten]⟩
  | cons e rest ih =>
    intro so db so' db' h
    cases hs : applyEvent si rs a n so db e with
    | error m =>
      simp only [applyEvents, hs] at h
      exact Except.noConfusion h
    | ok p =>
      obtain ⟨so1, db1⟩ := p
      simp only [applyEvents, hs] at h
      obtain ⟨tail, hlog1, hrel⟩ := applyEvent_log hs
      obtain ⟨L, hF, hlog2⟩ := ih h
      exact ⟨tail :: L, .cons hrel hF, by
        rw [hlog2, hlog1]
        simp [List.flatten, List.append_assoc]⟩

/-- Claim C3: when `runCommand` commits, the event-log entries the call
appended line up one-to-one (possibly empty for skipped events) with the
events `planActions` returned, in that exact order: the new log is the
old log followed by the per-event batches joined in planning order, so
for any one row the entries appended for it appear in exactly the order
the corresponding events were planned (which is also the order they were
applied). -/
theorem committed_log_append_order (si : SchemaInfo) (rs : Reducers)
    (cmd : DispatchCommand) (input : Payload) (a : String) (n : Nat) (db : DB)
    (h : isOkE (runCommandE si rs cmd input a n db) = true) :
    ∃ so md events so' db' L,
      lockRows si db (cmd.mutator input) [] [] = .ok (so, md) ∧
      cmd.planActions input md = .ok events ∧
      applyEvents si rs a n events so db = .ok (so', db') ∧
      runCommandE si rs cmd input a n db = .ok db' ∧
      List.Forall₂ entryTailRel events L ∧
      db'.log = db.log ++ L.flatten ∧
      ∀ r, db'.log.filter (fun en => en.rowId == r) =
        db.log.filter (fun en => en.rowId == r) ++
          L.flatten.filter (fun en => en.rowId == r) := by
  cases hl : lockRows si db (cmd.mutator input) [] [] with
  | error m =>
    simp only [runCommandE, hl, isOkE] at h
    exact Bool.noConfusion h
  | ok p =>
    obtain ⟨so, md⟩ := p
    cases hp : cmd.planActions input md with
    | error m =>
      simp only [runCommandE, hl, hp, isOkE] at h
      exact Bool.noConfusion h
    | ok events =>
      cases ha : applyEvents si rs a n events so db with
      | error m =>
        simp only [runCommandE, hl, hp, ha, isOkE] at h
        exact Bool.noConfusion h
      | ok q =>
        obtain ⟨so', db'⟩ := q
        obtain ⟨L, hF, hlog⟩ := applyEvents_log ha
        refine ⟨so, md, events, so', db', L, rfl, hp, ha, ?_, hF, hlog, ?_⟩
        · simp only [runCommandE, hl, hp, ha]
        · intro r
          rw [hlog, List.filter_append]

/-- Witness for C3: dispatching the create command `addItem` on `db0`
commits, and the appended log entries follow the planned event order. -/
theorem committed_log_append_order_witness :
    ∃ so md events so' db' L,
      lockRows si0 db0 (cmdAdd.mutator [("value", Value.int 1)]) [] [] = .ok (so, md) ∧
      cmdAdd.planActions [("value", Value.int 1)] md = .ok events ∧
      applyEvents si0 rs0 "actor" 0 events so db0 = .ok (so', db') ∧
      runCommandE si0 rs0 cmdAdd [("value", Value.int 1)] "actor" 0 db0 = .ok db' ∧
      List.Forall₂ entryTailRel events L ∧
      db'.log = db0.log ++ L.flatten ∧
      ∀ r, db'.log.filter (fun en => en.rowId == r) =
        db0.log.filter (fun en => en.rowId == r) ++
          L.flatten.filter (fun en => en.rowId == r) :=
  committed_log_append_order si0 rs0 cmdAdd [("value", Value.int 1)] "actor" 0 db0 rfl

theorem processSchema_skips_events (schema : List (String × List (String × DType))) :
    alookup (processSchema schema).namesForTable "events" = none ∧
    alookup (processSchema schema).selectUpdateForTable "events" = none ∧
    alookup (processSchema schema).createForTable "events" = none ∧
    alookup (processSchema schema).updateForTable "events" = none := by
  induction schema with
  | nil => exact ⟨rfl, rfl, rfl, rfl⟩
  | cons tc rest ih =>
    obtain ⟨t, cols⟩ := tc
    by_cases h : t = "events"
    · simp only [processSchema]
      rw [if_pos h]
      exact ih
    · simp only [processSchema]
      rw [if_neg h]
      obtain ⟨i1, i2, i3, i4⟩ := ih
      exact ⟨by simp only [alookup, if_neg h]; exact i1,
             by simp only [alookup, if_neg h]; exact i2,
             by simp only [alookup, if_neg h]; exact i3,
             by simp only [alookup, if_neg h]; exact i4⟩

theorem processSchema_lookup (t : String) (cols : List (String × DType)) :
    ∀ schema : List (String × List (String × DType)),
      (schema.map Prod.fst).Nodup → (t, cols) ∈ schema → t ≠ "events" →
      alookup (processSchema schema).namesForTable t = some (cols.map Prod.fst) ∧
      alookup (processSchema schema).selectUpdateForTable t =
        some (mkSelectUpdate t (cols.map Prod.fst)) ∧
      alookup (processSchema schema).createForTable t =
        some (mkCreate t (cols.map Prod.fst)) ∧
      alookup (processSchema schema).updateForTable t =
        some (mkUpdate t (cols.map Prod.fst)) := by
  intro schema
  induction schema with
  | nil => intro _ hmem _; cases hmem
  | cons tc rest ih =>
    intro hnd hmem hne
    obtain ⟨t', cols'⟩ := tc
    rw [List.map_cons, List.nodup_cons] at hnd
    rcases List.mem_cons.mp hmem with heq | hmem'
    · rw [Prod.mk.injEq] at heq
      obtain ⟨ht, hc⟩ := heq
      subst ht
      subst hc
      simp only [processSchema]
      rw [if_neg hne]
      exact ⟨by simp [alookup], by simp [alookup], by simp [alookup], by simp [alookup]⟩
    · by_cases h' : t' = "events"
      · simp only [processSchema]
        rw [if_pos h']
        exact ih hnd.2 hmem' hne
      · simp only [processSchema]
        rw [if_neg h']
        have htne : t' ≠ t := by
          intro hc
          apply hnd.1
          rw [hc]
          exact List.mem_map.mpr ⟨(t, cols), hmem', rfl⟩
        obtain ⟨i1, i2, i3, i4⟩ := ih hnd.2 hmem' hne
        exact ⟨by simp only [alookup, if_neg htne]; exact i1,
               by simp only [alookup, if_neg htne]; exact i2,
               by simp only [alookup, if_neg htne]; exact i3,
               by simp only [alookup, if_neg htne]; exact i4⟩

/-- Claim C8: `processSchema` is a pure function of the schema; for
every non-reserved table (under the runtime invariant that table names
are unique, as JS object keys are) it records the column names in
declaration order together with exactly the three generated statements —
the row-locking select of all columns by id, the all-columns insert
returning the new id, and the COALESCE update of every column keyed by
the row id as the final positional parameter — and the reserved `events`
table is skipped in every output map. -/
theorem schema_compiler_output :
    (∀ (schema : List (String × List (String × DType))) (t : String)
        (cols : List (String × DType)),
      (schema.map Prod.fst).Nodup → (t, cols) ∈ schema → t ≠ "events" →
      alookup (processSchema schema).namesForTable t = some (cols.map Prod.fst) ∧
      alookup (processSchema schema).selectUpdateForTable t =
        some (mkSelectUpdate t (cols.map Prod.fst)) ∧
      alookup (processSchema schema).createForTable t =
        some (mkCreate t (cols.map Prod.fst)) ∧
      alookup (processSchema schema).updateForTable t =
        some (mkUpdate t (cols.map Prod.fst))) ∧
    (∀ schema : List (String × List (String × DType)),
      alookup (processSchema schema).namesForTable "events" = none ∧
      alookup (processSchema schema).selectUpdateForTable "events" = none ∧
      alookup (processSchema schema).createForTable "events" = none ∧
      alookup (processSchema schema).updateForTable "events" = none) :=
  ⟨fun schema t cols hnd hmem hne => processSchema_lookup t cols schema hnd hmem hne,
   processSchema_skips_events⟩

/-- Witness for C8: on the example schema, `items` compiles to its
column list and three statements, and `events` is absent from all four
outputs. -/
theorem schema_compiler_output_witness :
    (alookup (processSchema schema0).namesForTable "items" =
        some ([("value", DType.dint4)].map Prod.fst) ∧
      alookup (processSchema schema0).selectUpdateForTable "items" =
        some (mkSelectUpdate "items" ([("value", DType.dint4)].map Prod.fst)) ∧
      alookup (processSchema schema0).createForTable "items" =
        some (mkCreate "items" ([("value", DType.dint4)].map Prod.fst)) ∧
      alookup (processSchema schema0).updateForTable "items" =
        some (mkUpdate "items" ([("value", DType.dint4)].map Prod.fst))) ∧
    (alookup (processSchema schema0).namesForTable "events" = none ∧
      alookup (processSchema schema0).selectUpdateForTable "events" = none ∧
      alookup (processSchema schema0).createForTable "events" = none ∧
      alookup (processSchema schema0).updateForTable "events" = none) :=
  ⟨schema_compiler_output.1 schema0 "items" [("value", DType.dint4)]
      (by decide) (by decide) (by decide),
   schema_compiler_output.2 schema0⟩

theorem coalesceCells_cons_none (o : Option Value) (os ns : List (Option Value)) :
    coalesceCells (o :: os) (none :: ns) = o :: coalesceCells os ns := rfl

theorem coalesceCells_cons_some (o : Option Value) (os : List (Option Value))
    (v : Value) (ns : List (Option Value)) :
    coalesceCells (o :: os) (some v :: ns) = some v :: coalesceCells os ns := rfl

theorem coalesceCells_idem (old new : List (Option Value)) :
    coalesceCells (coalesceCells old new) new = coalesceCells old new := by
  induction old generalizing new with
  | nil => cases new <;> rfl
  | cons o os ih =>
    cases new with
    | nil => rfl
    | cons nv ns =>
      cases nv with
      | none => simp only [coalesceCells_cons_none, ih]
      | some v => simp only [coalesceCells_cons_some, ih]

theorem updateRowsD_idem (rows : List Row) (rid : String) (vals : List (Option Value)) :
    updateRowsD (updateRowsD rows rid vals) rid vals = updateRowsD rows rid vals := by
  simp only [updateRowsD, List.map_map]
  apply List.map_congr_left
  intro r _
  simp only [Function.comp]
  by_cases h : r.id = rid
  · simp [h, coalesceCells_idem]
  · simp [h]

/-- Claim C9 (amended): the COALESCE-based update of the modify branch
is idempotent at the value level — re-executing the generated update
with the same partial values leaves every row unchanged — and each
applied modify event performs exactly that update and appends exactly
one event-log entry.  (Replaying a whole modify event re-runs the
updater on the new state, so the final row state is preserved only when
the updater's partial result is unchanged on replay; a state-dependent
updater such as an increment yields a different state, see the
counterexample.) -/
theorem coalesce_update_value_idempotent :
    (∀ (rows : List Row) (rid : String) (vals : List (Option Value)),
      updateRowsD (updateRowsD rows rid vals) rid vals = updateRowsD rows rid vals) ∧
    (∀ (si : SchemaInfo) (rs : Reducers) (a : String) (n : Nat) (so : SelObjs)
        (db : DB) (nm rid t : String) (d : Payload)
        (u : RowObj → Payload → Payload) (prev : RowObj) (names : List String),
      nm ≠ "" → lookup2 rs t nm = some (.modifyR u) →
      alookup so rid = some prev → alookup si.namesForTable t = some names →
      applyEvent si rs a n so db (ESEvent.modification nm rid (some t) d) =
        .ok (aset so rid (amergeP prev (u prev d)),
             appendLog
               (updateRowsInDb db t rid (names.map (fun c => alookup (u prev d) c)))
               ⟨nm, t, rid, a, d, n⟩) ∧
      (appendLog
          (updateRowsInDb db t rid (names.map (fun c => alookup (u prev d) c)))
          ⟨nm, t, rid, a, d, n⟩).log = db.log ++ [⟨nm, t, rid, a, d, n⟩]) := by
  refine ⟨updateRowsD_idem, ?_⟩
  intro si rs a n so db nm rid t d u prev names hnm hlook hprev hnames
  refine ⟨?_, rfl⟩
  simp only [applyEvent, if_neg hnm, hlook, hprev, hnames]

/-- Witness for C9 (amended): re-running the `items` update with the
partial values of the `inc` event leaves the row at `value = 6`, and
applying that modify event once updates the row and appends exactly one
log entry. -/
theorem coalesce_update_value_idempotent_witness :
    updateRowsD (updateRowsD [⟨"r1", [some (Value.int 5)]⟩] "r1" [some (Value.int 6)])
        "r1" [some (Value.int 6)] =
      updateRowsD [⟨"r1", [some (Value.int 5)]⟩] "r1" [some (Value.int 6)] ∧
    (applyEvent si0 rs0 "actor" 0
        [("r1", [("id", some (Value.str "r1")), ("value", some (Value.int 5))])] db0
        (ESEvent.modification "inc" "r1" (some "items") []) =
      .ok (aset [("r1", [("id", some (Value.str "r1")), ("value", some (Value.int 5))])]
             "r1"
             (amergeP [("id", some (Value.str "r1")), ("value", some (Value.int 5))]
               (incU [("id", some (Value.str "r1")), ("value", some (Value.int 5))] [])),
           appendLog
             (updateRowsInDb db0 "items" "r1"
               (["value"].map (fun c =>
                 alookup (incU [("id", some (Value.str "r1")),
                                ("value", some (Value.int 5))] []) c)))
             ⟨"inc", "items", "r1", "actor", [], 0⟩) ∧
      (appendLog
          (updateRowsInDb db0 "items" "r1"
            (["value"].map (fun c =>
              alookup (incU [("id", some (Value.str "r1")),
                             ("value", some (Value.int 5))] []) c)))
          ⟨"inc", "items", "r1", "actor", [], 0⟩).log =
        db0.log ++ [⟨"inc", "items", "r1", "actor", [], 0⟩]) :=
  ⟨coalesce_update_value_idempotent.1 [⟨"r1", [some (Value.int 5)]⟩] "r1"
      [some (Value.int 6)],
   coalesce_update_value_idempotent.2 si0 rs0 "actor" 0
      [("r1", [("id", some (Value.str "r1")), ("value", some (Value.int 5))])] db0
      "inc" "r1" "items" [] incU
      [("id", some (Value.str "r1")), ("value", some (Value.int 5))] ["value"]
      (by decide) rfl rfl rfl⟩
